import Mathlib

/-!
Verification of the session lifecycle and history-management subsystem of the
chat backend (`src/test2.js`, class `ChatService`).

The `ChatService` keeps an insertion-ordered `Map` from session id to a
session record.  We embed the `Map` as an association list `List (String × Session)`
with JavaScript `Map` semantics: `get` reads the first matching key, `set`
replaces an existing entry in place (preserving its position) or appends a new
one, `delete` removes the entry, `size` is the length.

Environment inputs that the JavaScript obtains implicitly — `uuidv4()`,
`new Date()` (each call modelled by its own parameter, in source order),
`startChat` handles, and the awaited Gemini reply — are passed as explicit
parameters.  Timestamps are `Int` (milliseconds since the epoch, as JS `Date`
arithmetic produces signed numbers); provider-chat handles (`chatSession`)
are opaque `Nat` tokens.  A thrown JS `Error` is an `Except.error` carrying
the message string; each public method wraps inner errors with its
`Failed to ...: ` prefix exactly as the `try`/`catch` blocks in the source do.
Every method returns the (possibly updated) service state together with its
result, mirroring where the source mutates `this.sessions`.
-/

namespace ChatBackend

/-- One user/assistant turn, as built in `sendMessage` (src/test2.js:83-88). -/
structure Exchange where
  id : Nat
  user : String
  assistant : String
  timestamp : Int
  deriving Repr, DecidableEq

/-- A session record, as built in `createSession` (src/test2.js:53-59).
`chatSession` is the opaque provider-state handle (`startChat` result). -/
structure Session where
  id : String
  chatSession : Nat
  history : List Exchange
  createdAt : Int
  lastActivity : Int
  deriving Repr, DecidableEq

/-- The service state: the `sessions` Map, as an insertion-ordered
association list. -/
structure ChatService where
  sessions : List (String × Session)
  deriving Repr, DecidableEq

/-- JS `Map.prototype.get`: first entry with the given key. -/
def mapGet : List (String × Session) → String → Option Session
  | [], _ => none
  | (k, v) :: rest, key => if k = key then some v else mapGet rest key

/-- JS `Map.prototype.set`: replace an existing entry in place, else append. -/
def mapSet : List (String × Session) → String → Session → List (String × Session)
  | [], key, v => [(key, v)]
  | (k, w) :: rest, key, v =>
    if k = key then (key, v) :: rest else (k, w) :: mapSet rest key v

/-- JS `Map.prototype.delete`: remove the entry with the given key. -/
def mapDelete : List (String × Session) → String → List (String × Session)
  | [], _ => []
  | (k, w) :: rest, key => if k = key then rest else (k, w) :: mapDelete rest key

/-- Keys of a JS `Map` are unique; our operations preserve this invariant. -/
def keysNodup (m : List (String × Session)) : Prop :=
  (m.map Prod.fst).Nodup

instance (m : List (String × Session)) : Decidable (keysNodup m) := by
  unfold keysNodup; infer_instance

/-- The message of the error thrown by `getSession` (src/test2.js:70). -/
def sessionNotFoundMsg : String := "Session not found"

/-- Embeds `ChatService.createSession` (src/test2.js:49-65).  `sessionId` is the
optional caller-supplied id; `genId` is what `uuidv4()` would return;
`freshChat` is the handle of the freshly constructed `startChat` session;
`nowCreated`/`nowActivity` are the two `new Date()` calls in source order.
The JS `sessionId || uuidv4()` treats the empty string as falsy.
Note the source performs `this.sessions.set(id, session)` without checking
whether `id` is already present. -/
def createSession (svc : ChatService) (sessionId : Option String) (genId : String)
    (freshChat : Nat) (nowCreated nowActivity : Int) : ChatService × Session :=
  let id := match sessionId with
    | some s => if s = "" then genId else s
    | none => genId
  let session : Session :=
    { id := id, chatSession := freshChat, history := [],
      createdAt := nowCreated, lastActivity := nowActivity }
  ({ sessions := mapSet svc.sessions id session }, session)

/-- Embeds `ChatService.getSession` (src/test2.js:67-73): lookup or throw
`Session not found`.  Read-only. -/
def getSession (svc : ChatService) (sessionId : String) : Except String Session :=
  match mapGet svc.sessions sessionId with
  | none => .error sessionNotFoundMsg
  | some s => .ok s

/-- The value returned by a successful `sendMessage` (src/test2.js:93-97). -/
structure SendResult where
  response : String
  exchangeId : Nat
  sessionId : String
  deriving Repr, DecidableEq

/-- Embeds `ChatService.sendMessage` (src/test2.js:75-101).  `gatewayResult` is the
outcome of the awaited `chatSession.sendMessage`/`response.text()` provider
call (`.error` = the provider call threw); `freshExchangeId` is the
`uuidv4()` for the exchange; `nowExchange`/`nowActivity` are the two
`new Date()` calls in source order.  The history push and `lastActivity`
update happen only after the provider call has succeeded; any inner error is
rethrown with the `Failed to send message: ` prefix. -/
def sendMessage (svc : ChatService) (sessionId message : String)
    (gatewayResult : Except String String) (freshExchangeId : Nat)
    (nowExchange nowActivity : Int) : ChatService × Except String SendResult :=
  match getSession svc sessionId with
  | .error e => (svc, .error ("Failed to send message: " ++ e))
  | .ok session =>
    match gatewayResult with
    | .error e => (svc, .error ("Failed to send message: " ++ e))
    | .ok text =>
      let exchange : Exchange :=
        { id := freshExchangeId, user := message,
          assistant := text, timestamp := nowExchange }
      let updated : Session :=
        { session with history := session.history ++ [exchange],
                       lastActivity := nowActivity }
      ({ sessions := mapSet svc.sessions sessionId updated },
        .ok { response := text, exchangeId := freshExchangeId,
              sessionId := session.id })

/-- The value returned by `getSessionHistory` (src/test2.js:106-112). -/
structure HistoryResult where
  sessionId : String
  createdAt : Int
  lastActivity : Int
  messageCount : Nat
  history : List Exchange
  deriving Repr, DecidableEq

/-- Embeds `ChatService.getSessionHistory` (src/test2.js:103-116): summarize the
session; contains no mutating statement, so the service state passes through
untouched. -/
def getSessionHistory (svc : ChatService) (sessionId : String) :
    ChatService × Except String HistoryResult :=
  match getSession svc sessionId with
  | .error e => (svc, .error ("Failed to get session history: " ++ e))
  | .ok session =>
    (svc, .ok { sessionId := session.id, createdAt := session.createdAt,
                lastActivity := session.lastActivity,
                messageCount := session.history.length,
                history := session.history })

/-- The value returned by `deleteSession` (src/test2.js:122). -/
structure DeleteResult where
  sessionId : String
  deletedAt : Int
  deriving Repr, DecidableEq

/-- Embeds `ChatService.deleteSession` (src/test2.js:118-126): look the session up
(throwing if absent), remove it from the Map, return the deletion
timestamp (`nowDeleted` = the `new Date()` call). -/
def deleteSession (svc : ChatService) (sessionId : String) (nowDeleted : Int) :
    ChatService × Except String DeleteResult :=
  match getSession svc sessionId with
  | .error e => (svc, .error ("Failed to delete session: " ++ e))
  | .ok _ =>
    ({ sessions := mapDelete svc.sessions sessionId },
      .ok { sessionId := sessionId, deletedAt := nowDeleted })

/-- The value returned by `clearSessionHistory` (src/test2.js:134). -/
structure ClearResult where
  sessionId : String
  clearedAt : Int
  deriving Repr, DecidableEq

/-- Embeds `ChatService.clearSessionHistory` (src/test2.js:128-138): reset
`history` to a new empty array, replace `chatSession` with a freshly
constructed `startChat` handle (`freshChat`), set `lastActivity`
(`nowActivity`), and return `clearedAt` (`nowCleared`); the two timestamps
are the two `new Date()` calls in source order. -/
def clearSessionHistory (svc : ChatService) (sessionId : String) (freshChat : Nat)
    (nowActivity nowCleared : Int) : ChatService × Except String ClearResult :=
  match getSession svc sessionId with
  | .error e => (svc, .error ("Failed to clear session history: " ++ e))
  | .ok session =>
    let updated : Session :=
      { session with history := [], chatSession := freshChat,
                     lastActivity := nowActivity }
    ({ sessions := mapSet svc.sessions sessionId updated },
      .ok { sessionId := sessionId, clearedAt := nowCleared })

/-- The value returned by `cleanupInactiveSessions` (src/test2.js:162). -/
structure CleanupResult where
  cleaned : Nat
  remaining : Nat
  deriving Repr, DecidableEq

/-- The eviction loop of `cleanupInactiveSessions` (src/test2.js:154-160):
walk the entries, deleting each whose `now - lastActivity > maxAge` and
counting the deletions.  Returns the surviving entries and the count. -/
def sweep (now maxAge : Int) : List (String × Session) → List (String × Session) × Nat
  | [] => ([], 0)
  | entry :: rest =>
    let (kept, cleaned) := sweep now maxAge rest
    if now - entry.2.lastActivity > maxAge then (kept, cleaned + 1)
    else (entry :: kept, cleaned)

/-- Embeds `ChatService.cleanupInactiveSessions` (src/test2.js:150-163): evict every
session with `now - lastActivity > maxAge`; return the number cleaned and
the Map size afterwards. -/
def cleanupInactiveSessions (svc : ChatService) (maxAge now : Int) :
    ChatService × CleanupResult :=
  let result := sweep now maxAge svc.sessions
  ({ sessions := result.1 },
   { cleaned := result.2, remaining := result.1.length })

/-! ### Association-list lemmas (JS `Map` semantics) -/

theorem mapGet_mapSet_self (m : List (String × Session)) (k : String) (v : Session) :
    mapGet (mapSet m k v) k = some v := by
  induction m with
  | nil => simp [mapSet, mapGet]
  | cons hd tl ih =>
    obtain ⟨k0, w⟩ := hd
    by_cases h : k0 = k
    · simp [mapSet, mapGet, h]
    · simp [mapSet, mapGet, h, ih]

theorem mapGet_eq_none_of_not_mem (m : List (String × Session)) (k : String)
    (h : k ∉ m.map Prod.fst) : mapGet m k = none := by
  induction m with
  | nil => rfl
  | cons hd tl ih =>
    obtain ⟨k0, w⟩ := hd
    simp only [List.map_cons, List.mem_cons] at h
    push_neg at h
    have hk : ¬ k0 = k := fun hk => h.1 hk.symm
    simp [mapGet, hk, ih h.2]

theorem mapGet_mapDelete_self (m : List (String × Session)) (k : String)
    (hnd : keysNodup m) : mapGet (mapDelete m k) k = none := by
  induction m with
  | nil => rfl
  | cons hd tl ih =>
    obtain ⟨k0, w⟩ := hd
    simp only [keysNodup, List.map_cons, List.nodup_cons] at hnd
    by_cases h : k0 = k
    · subst h
      simp only [mapDelete, if_pos rfl]
      exact mapGet_eq_none_of_not_mem tl k0 hnd.1
    · simp [mapDelete, h, mapGet, ih hnd.2]

/-! ### Claim theorems -/

/-- A registry already holding a session under id `"dup"`, with one recorded
exchange (the concrete input for claim C1). -/
def dupOldSession : Session :=
  { id := "dup", chatSession := 1,
    history := [{ id := 9, user := "hi", assistant := "hello", timestamp := 5 }],
    createdAt := 0, lastActivity := 5 }

/-- The service whose registry maps `"dup"` to `dupOldSession`. -/
def dupService : ChatService := { sessions := [("dup", dupOldSession)] }

/-- C1: the spec demands that `create` on an already-present id fail with
`SessionExists`, leaving the existing session unchanged.  The code has no
such check: `createSession("dup")` on a registry that already holds `"dup"`
succeeds and silently replaces the existing session (its recorded history is
lost and the old provider chat session is leaked), so afterwards the
registry's `"dup"` entry is the fresh empty session, not the original one. -/
theorem createSession_duplicate_id_silently_overwrites :
    (createSession dupService (some "dup") "gen" 7 100 101).2.history = [] ∧
    mapGet (createSession dupService (some "dup") "gen" 7 100 101).1.sessions "dup" =
      some (createSession dupService (some "dup") "gen" 7 100 101).2 ∧
    mapGet (createSession dupService (some "dup") "gen" 7 100 101).1.sessions "dup" ≠
      some dupOldSession ∧
    (createSession dupService (some "dup") "gen" 7 100 101).1.sessions.length = 1 := by
  refine ⟨rfl, rfl, ?_, rfl⟩
  decide

/-- C2: `sendMessage` on an id absent from the registry fails with the
`Session not found` error (wrapped by the method's `Failed to send message: `
prefix) and returns the registry unchanged — no session is created as a side
effect; `getSession` and `getSessionHistory` on the same unknown id likewise
fail without touching the registry. -/
theorem sendMessage_unknown_id_fails_without_side_effect
    (svc : ChatService) (sessionId message : String)
    (gatewayResult : Except String String) (freshExchangeId : Nat)
    (nowExchange nowActivity : Int)
    (h : mapGet svc.sessions sessionId = none) :
    sendMessage svc sessionId message gatewayResult freshExchangeId
        nowExchange nowActivity =
      (svc, .error ("Failed to send message: " ++ sessionNotFoundMsg)) ∧
    getSession svc sessionId = .error sessionNotFoundMsg ∧
    getSessionHistory svc sessionId =
      (svc, .error ("Failed to get session history: " ++ sessionNotFoundMsg)) := by
  refine ⟨?_, ?_, ?_⟩ <;> simp [sendMessage, getSession, getSessionHistory, h]

/-- Witness for C2 at the empty registry and id `"s1"`. -/
theorem sendMessage_unknown_id_fails_without_side_effect_witness :
    sendMessage ⟨[]⟩ "s1" "hi" (.ok "hello") 3 10 11 =
      (⟨[]⟩, .error ("Failed to send message: " ++ sessionNotFoundMsg)) ∧
    getSession ⟨[]⟩ "s1" = .error sessionNotFoundMsg ∧
    getSessionHistory ⟨[]⟩ "s1" =
      (⟨[]⟩, .error ("Failed to get session history: " ++ sessionNotFoundMsg)) :=
  sendMessage_unknown_id_fails_without_side_effect ⟨[]⟩ "s1" "hi" (.ok "hello")
    3 10 11 rfl

/-- C4: when the provider (Conversation Gateway) call inside `sendMessage`
fails, the whole service state is returned unchanged — in particular the
session's history length, `lastActivity` and every other field are exactly
as before and no partial exchange is recorded — and the error is surfaced
with the `Failed to send message: ` prefix. -/
theorem sendMessage_gateway_error_leaves_session_unmodified
    (svc : ChatService) (sessionId message : String) (s : Session) (e : String)
    (freshExchangeId : Nat) (nowExchange nowActivity : Int)
    (h : mapGet svc.sessions sessionId = some s) :
    sendMessage svc sessionId message (.error e) freshExchangeId
        nowExchange nowActivity = (svc, .error ("Failed to send message: " ++ e)) ∧
    mapGet (sendMessage svc sessionId message (.error e) freshExchangeId
        nowExchange nowActivity).1.sessions sessionId = some s := by
  have h1 : sendMessage svc sessionId message (.error e) freshExchangeId
      nowExchange nowActivity = (svc, .error ("Failed to send message: " ++ e)) := by
    simp [sendMessage, getSession, h]
  exact ⟨h1, by rw [h1]; exact h⟩

/-- Witness for C4 at a one-session registry. -/
theorem sendMessage_gateway_error_leaves_session_unmodified_witness :
    sendMessage dupService "dup" "msg" (.error "provider down") 3 10 11 =
      (dupService, .error ("Failed to send message: " ++ "provider down")) ∧
    mapGet (sendMessage dupService "dup" "msg" (.error "provider down")
        3 10 11).1.sessions "dup" = some dupOldSession :=
  sendMessage_gateway_error_leaves_session_unmodified dupService "dup" "msg"
    dupOldSession "provider down" 3 10 11 rfl

/-- C9: `getSessionHistory` is read-only: it returns the service state
unchanged (so no session's history, `createdAt`, `lastActivity` or
`chatSession` is modified), and consequently a later eviction pass
(`cleanupInactiveSessions`) behaves exactly as if the read had not
happened — reading history does not refresh the activity timestamp. -/
theorem getSessionHistory_is_read_only
    (svc : ChatService) (sessionId : String) (maxAge now : Int) :
    (getSessionHistory svc sessionId).1 = svc ∧
    cleanupInactiveSessions (getSessionHistory svc sessionId).1 maxAge now =
      cleanupInactiveSessions svc maxAge now := by
  have h : (getSessionHistory svc sessionId).1 = svc := by
    unfold getSessionHistory
    cases getSession svc sessionId <;> rfl
  exact ⟨h, by rw [h]⟩


/-! ### Eviction-sweep lemmas -/

theorem sweep_mem (now maxAge : Int) (l : List (String × Session))
    (e : String × Session) :
    e ∈ (sweep now maxAge l).1 ↔ e ∈ l ∧ now - e.2.lastActivity ≤ maxAge := by
  induction l with
  | nil => simp [sweep]
  | cons hd tl ih =>
    by_cases h : now - hd.2.lastActivity > maxAge
    · simp only [sweep, if_pos h, List.mem_cons, ih]
      constructor
      · rintro ⟨he, hle⟩
        exact ⟨Or.inr he, hle⟩
      · rintro ⟨he | he, hle⟩
        · subst he
          exact absurd hle (not_le.mpr h)
        · exact ⟨he, hle⟩
    · simp only [sweep, if_neg h, List.mem_cons, ih]
      constructor
      · rintro (rfl | ⟨he, hle⟩)
        · exact ⟨Or.inl rfl, not_lt.mp h⟩
        · exact ⟨Or.inr he, hle⟩
      · rintro ⟨he | he, hle⟩
        · exact Or.inl he
        · exact Or.inr ⟨he, hle⟩

theorem sweep_length (now maxAge : Int) (l : List (String × Session)) :
    (sweep now maxAge l).1.length + (sweep now maxAge l).2 = l.length := by
  induction l with
  | nil => rfl
  | cons hd tl ih =>
    by_cases h : now - hd.2.lastActivity > maxAge <;>
      simp [sweep, h] <;> omega

theorem sweep_count (now maxAge : Int) (l : List (String × Session)) :
    (sweep now maxAge l).2 =
      l.countP (fun e => decide (now - e.2.lastActivity > maxAge)) := by
  induction l with
  | nil => rfl
  | cons hd tl ih =>
    by_cases h : now - hd.2.lastActivity > maxAge <;>
      simp [sweep, h, List.countP_cons, ih]

theorem sweep_sublist (now maxAge : Int) (l : List (String × Session)) :
    List.Sublist (sweep now maxAge l).1 l := by
  induction l with
  | nil => simp [sweep]
  | cons hd tl ih =>
    by_cases h : now - hd.2.lastActivity > maxAge
    · simpa [sweep, h] using ih.cons hd
    · simpa [sweep, h] using ih.cons₂ hd

/-- C6: `cleanupInactiveSessions maxAge` (evaluated at clock reading `now`)
keeps exactly the registry entries with `now - lastActivity ≤ maxAge` and
evicts exactly those with `now - lastActivity > maxAge`; it returns the
number of evicted sessions in `cleaned` and the number of sessions left in
the registry after eviction in `remaining`. -/
theorem cleanupInactiveSessions_evicts_exactly_stale
    (svc : ChatService) (maxAge now : Int) :
    (∀ e : String × Session,
      e ∈ (cleanupInactiveSessions svc maxAge now).1.sessions ↔
        e ∈ svc.sessions ∧ now - e.2.lastActivity ≤ maxAge) ∧
    (cleanupInactiveSessions svc maxAge now).2.cleaned =
      svc.sessions.countP (fun e => decide (now - e.2.lastActivity > maxAge)) ∧
    (cleanupInactiveSessions svc maxAge now).2.remaining =
      (cleanupInactiveSessions svc maxAge now).1.sessions.length := by
  refine ⟨fun e => ?_, ?_, rfl⟩
  · exact sweep_mem now maxAge svc.sessions e
  · exact sweep_count now maxAge svc.sessions

/-- C10: the counts returned by `cleanupInactiveSessions` partition the
registry: `cleaned + remaining` equals the number of sessions immediately
before the call, and the surviving entries form a sublist of the original
registry — every session that is not evicted is kept with exactly its
previous contents, in its previous relative position. -/
theorem cleanupInactiveSessions_counts_partition_registry
    (svc : ChatService) (maxAge now : Int) :
    (cleanupInactiveSessions svc maxAge now).2.cleaned +
        (cleanupInactiveSessions svc maxAge now).2.remaining =
      svc.sessions.length ∧
    List.Sublist (cleanupInactiveSessions svc maxAge now).1.sessions
      svc.sessions := by
  constructor
  · have h := sweep_length now maxAge svc.sessions
    simp only [cleanupInactiveSessions]
    omega
  · exact sweep_sublist now maxAge svc.sessions


/-- C5: on an id present in the registry, `clearSessionHistory` replaces the
session by one whose `history` is empty and whose `chatSession` handle is
the freshly constructed provider chat (`freshChat`, a new value rather than
a mutation of the old handle), while keeping `id` and `createdAt` and
setting `lastActivity` to the time of the clear; on an absent id it fails
with the wrapped `Session not found` error and leaves the registry
unchanged. -/
theorem clearSessionHistory_resets_and_preserves_identity
    (svc : ChatService) (sessionId : String) (s : Session) (freshChat : Nat)
    (nowActivity nowCleared : Int) :
    (mapGet svc.sessions sessionId = some s →
      clearSessionHistory svc sessionId freshChat nowActivity nowCleared =
        ({ sessions := mapSet svc.sessions sessionId
            { id := s.id, chatSession := freshChat, history := [],
              createdAt := s.createdAt, lastActivity := nowActivity } },
         .ok { sessionId := sessionId, clearedAt := nowCleared }) ∧
      mapGet (clearSessionHistory svc sessionId freshChat nowActivity
          nowCleared).1.sessions sessionId =
        some { id := s.id, chatSession := freshChat, history := [],
               createdAt := s.createdAt, lastActivity := nowActivity }) ∧
    (mapGet svc.sessions sessionId = none →
      clearSessionHistory svc sessionId freshChat nowActivity nowCleared =
        (svc, .error ("Failed to clear session history: " ++ sessionNotFoundMsg))) := by
  constructor
  · intro h
    have h1 : clearSessionHistory svc sessionId freshChat nowActivity nowCleared =
        ({ sessions := mapSet svc.sessions sessionId
            { id := s.id, chatSession := freshChat, history := [],
              createdAt := s.createdAt, lastActivity := nowActivity } },
         .ok { sessionId := sessionId, clearedAt := nowCleared }) := by
      simp [clearSessionHistory, getSession, h]
    refine ⟨h1, ?_⟩
    rw [h1]
    exact mapGet_mapSet_self svc.sessions sessionId _
  · intro h
    simp [clearSessionHistory, getSession, h]

/-- Witness for C5: the present-id case at `dupService` and the absent-id
case at the empty registry. -/
theorem clearSessionHistory_resets_and_preserves_identity_witness :
    mapGet (clearSessionHistory dupService "dup" 8 20 21).1.sessions "dup" =
      some { id := "dup", chatSession := 8, history := [],
             createdAt := 0, lastActivity := 20 } ∧
    clearSessionHistory ⟨[]⟩ "dup" 8 20 21 =
      (⟨[]⟩, .error ("Failed to clear session history: " ++ sessionNotFoundMsg)) :=
  ⟨((clearSessionHistory_resets_and_preserves_identity dupService "dup"
      dupOldSession 8 20 21).1 rfl).2,
   (clearSessionHistory_resets_and_preserves_identity ⟨[]⟩ "dup"
      dupOldSession 8 20 21).2 rfl⟩

/-- C7: on an id present in a registry with unique keys (the JS `Map`
invariant), `deleteSession` removes that entry entirely and returns the
deletion timestamp, and a subsequent `getSession` on the same id fails with
`Session not found`; on an absent id, `deleteSession` fails with the
wrapped `Session not found` error and leaves the registry unchanged. -/
theorem deleteSession_removes_session_entirely
    (svc : ChatService) (sessionId : String) (s : Session) (nowDeleted : Int) :
    (mapGet svc.sessions sessionId = some s → keysNodup svc.sessions →
      deleteSession svc sessionId nowDeleted =
        ({ sessions := mapDelete svc.sessions sessionId },
         .ok { sessionId := sessionId, deletedAt := nowDeleted }) ∧
      mapGet (deleteSession svc sessionId nowDeleted).1.sessions sessionId = none ∧
      getSession (deleteSession svc sessionId nowDeleted).1 sessionId =
        .error sessionNotFoundMsg) ∧
    (mapGet svc.sessions sessionId = none →
      deleteSession svc sessionId nowDeleted =
        (svc, .error ("Failed to delete session: " ++ sessionNotFoundMsg))) := by
  constructor
  · intro h hnd
    have h1 : deleteSession svc sessionId nowDeleted =
        ({ sessions := mapDelete svc.sessions sessionId },
         .ok { sessionId := sessionId, deletedAt := nowDeleted }) := by
      simp [deleteSession, getSession, h]
    have h2 : mapGet (deleteSession svc sessionId nowDeleted).1.sessions sessionId =
        none := by
      rw [h1]
      exact mapGet_mapDelete_self svc.sessions sessionId hnd
    exact ⟨h1, h2, by simp [getSession, h2]⟩
  · intro h
    simp [deleteSession, getSession, h]

/-- Witness for C7: deleting `"dup"` from `dupService` and the absent-id case
at the empty registry. -/
theorem deleteSession_removes_session_entirely_witness :
    deleteSession dupService "dup" 30 =
      (⟨[]⟩, .ok { sessionId := "dup", deletedAt := 30 }) ∧
    getSession (deleteSession dupService "dup" 30).1 "dup" =
      .error sessionNotFoundMsg ∧
    deleteSession ⟨[]⟩ "dup" 30 =
      (⟨[]⟩, .error ("Failed to delete session: " ++ sessionNotFoundMsg)) :=
  ⟨((deleteSession_removes_session_entirely dupService "dup" dupOldSession
      30).1 rfl (by decide)).1,
   ((deleteSession_removes_session_entirely dupService "dup" dupOldSession
      30).1 rfl (by decide)).2.2,
   (deleteSession_removes_session_entirely ⟨[]⟩ "dup" dupOldSession 30).2 rfl⟩


/-- The environment of one successful `sendMessage` call: the user message,
the provider's reply, and the fresh uuid and the two clock readings the call
consumes. -/
structure AppendCall where
  message : String
  reply : String
  freshExchangeId : Nat
  tsExchange : Int
  tsActivity : Int
  deriving Repr, DecidableEq

/-- The exchange that a successful `sendMessage` call records
(src/test2.js:83-88). -/
def callExchange (c : AppendCall) : Exchange :=
  { id := c.freshExchangeId, user := c.message, assistant := c.reply,
    timestamp := c.tsExchange }

/-- Runs a sequence of `sendMessage` calls (each with a successful provider
reply) one after the other, threading the service state. -/
def runAppends (sessionId : String) : ChatService → List AppendCall → ChatService
  | svc, [] => svc
  | svc, c :: cs =>
      runAppends sessionId
        (sendMessage svc sessionId c.message (.ok c.reply) c.freshExchangeId
          c.tsExchange c.tsActivity).1 cs

/-- The `lastActivity` value after a sequence of successful appends: the
activity timestamp of the last call, or the starting value if there were
none. -/
def finalActivity (a : Int) : List AppendCall → Int
  | [] => a
  | c :: cs => finalActivity c.tsActivity cs

/-- C3: starting from any session present in the registry, a sequence of N
successful `sendMessage` calls grows that session's history by exactly the
N exchanges of those calls, appended in call order, while `id`, `createdAt`
and `chatSession` are untouched and `lastActivity` is updated by every
successful append (ending at the last call's activity timestamp). -/
theorem runAppends_appends_in_order
    (cs : List AppendCall) (svc : ChatService) (sessionId : String) (s : Session)
    (h : mapGet svc.sessions sessionId = some s) :
    mapGet (runAppends sessionId svc cs).sessions sessionId =
      some { id := s.id, chatSession := s.chatSession,
             history := s.history ++ cs.map callExchange,
             createdAt := s.createdAt,
             lastActivity := finalActivity s.lastActivity cs } ∧
    (s.history ++ cs.map callExchange).length = s.history.length + cs.length := by
  induction cs generalizing svc s with
  | nil =>
    refine ⟨?_, by simp⟩
    simpa [runAppends, finalActivity] using h
  | cons c cs ih =>
    have hstep : (sendMessage svc sessionId c.message (.ok c.reply)
        c.freshExchangeId c.tsExchange c.tsActivity).1 =
        { sessions := mapSet svc.sessions sessionId
            { id := s.id, chatSession := s.chatSession,
              history := s.history ++ [callExchange c],
              createdAt := s.createdAt, lastActivity := c.tsActivity } } := by
      simp [sendMessage, getSession, h, callExchange]
    have h2 : mapGet (mapSet svc.sessions sessionId
        { id := s.id, chatSession := s.chatSession,
          history := s.history ++ [callExchange c],
          createdAt := s.createdAt, lastActivity := c.tsActivity }) sessionId =
        some { id := s.id, chatSession := s.chatSession,
               history := s.history ++ [callExchange c],
               createdAt := s.createdAt, lastActivity := c.tsActivity } :=
      mapGet_mapSet_self svc.sessions sessionId _
    have ihres := ih ⟨mapSet svc.sessions sessionId
        { id := s.id, chatSession := s.chatSession,
          history := s.history ++ [callExchange c],
          createdAt := s.createdAt, lastActivity := c.tsActivity }⟩
      { id := s.id, chatSession := s.chatSession,
        history := s.history ++ [callExchange c],
        createdAt := s.createdAt, lastActivity := c.tsActivity } h2
    refine ⟨?_, by simp⟩
    have hmain := ihres.1
    simp only [runAppends, hstep]
    simpa [finalActivity, List.append_assoc] using hmain

/-- Witness for C3: two successful appends onto a fresh empty session leave
a history of exactly those two exchanges, in call order, with
`lastActivity` equal to the second call's activity timestamp. -/
theorem runAppends_appends_in_order_witness :
    mapGet (runAppends "s1"
        ⟨[("s1", { id := "s1", chatSession := 2, history := [],
                   createdAt := 0, lastActivity := 0 })]⟩
        [{ message := "hi", reply := "hello", freshExchangeId := 3,
           tsExchange := 10, tsActivity := 11 },
         { message := "how", reply := "fine", freshExchangeId := 4,
           tsExchange := 20, tsActivity := 21 }]).sessions "s1" =
      some { id := "s1", chatSession := 2,
             history := [{ id := 3, user := "hi", assistant := "hello",
                           timestamp := 10 },
                         { id := 4, user := "how", assistant := "fine",
                           timestamp := 20 }],
             createdAt := 0, lastActivity := 21 } :=
  (runAppends_appends_in_order
      [{ message := "hi", reply := "hello", freshExchangeId := 3,
         tsExchange := 10, tsActivity := 11 },
       { message := "how", reply := "fine", freshExchangeId := 4,
         tsExchange := 20, tsActivity := 21 }]
      ⟨[("s1", { id := "s1", chatSession := 2, history := [],
                 createdAt := 0, lastActivity := 0 })]⟩
      "s1"
      { id := "s1", chatSession := 2, history := [], createdAt := 0,
        lastActivity := 0 }
      rfl).1


/-! ### Concurrency model for two in-flight `sendMessage` calls

JavaScript runs request handlers on a single-threaded event loop: the only
suspension point inside `sendMessage` is the awaited provider call
(src/test2.js:79-80); the lookup before it and the history push,
`lastActivity` update and return after it each run as one uninterruptible
synchronous block.  Two concurrent `sendMessage` calls to the same id are
therefore an interleaving of two tasks, each consisting of a suspension
step that mutates nothing and a commit step that performs the push on the
shared session object.  Because the push mutates the very object stored in
the Map, the commit is modelled by reading the current entry and replacing
it; a schedule is a list of booleans naming which task runs its next step. -/

/-- The synchronous tail of `sendMessage` after the awaited provider call
resolves (src/test2.js:83-91): build the exchange, push it onto the session
object's history and update `lastActivity`.  If the entry has been removed
meanwhile the push lands on an orphaned object and the Map is unchanged. -/
def commitAppend (svc : ChatService) (sessionId : String) (c : AppendCall) :
    ChatService :=
  match mapGet svc.sessions sessionId with
  | none => svc
  | some session =>
    { sessions := mapSet svc.sessions sessionId
        { session with history := session.history ++ [callExchange c],
                       lastActivity := c.tsActivity } }

/-- Progress of one in-flight `sendMessage` call: before the provider call
has resolved, after it has resolved, and after the commit has run. -/
inductive AppendPhase where
  | pending
  | awaited
  | committed
  deriving Repr, DecidableEq

/-- The joint state of the registry and two in-flight `sendMessage` calls
to the same session id. -/
structure ConcurrentAppends where
  svc : ChatService
  phase1 : AppendPhase
  phase2 : AppendPhase
  deriving Repr, DecidableEq

/-- One scheduler step of a single in-flight call: resolving the provider
call mutates nothing; the next step runs the commit; a finished task does
nothing. -/
def stepAppend (sessionId : String) (c : AppendCall) (svc : ChatService) :
    AppendPhase → ChatService × AppendPhase
  | .pending => (svc, .awaited)
  | .awaited => (commitAppend svc sessionId c, .committed)
  | .committed => (svc, .committed)

/-- One scheduler step of the pair: `true` runs the next step of the first
call, `false` of the second. -/
def stepConcurrent (sessionId : String) (c1 c2 : AppendCall)
    (st : ConcurrentAppends) (b : Bool) : ConcurrentAppends :=
  if b then
    { st with svc := (stepAppend sessionId c1 st.svc st.phase1).1,
              phase1 := (stepAppend sessionId c1 st.svc st.phase1).2 }
  else
    { st with svc := (stepAppend sessionId c2 st.svc st.phase2).1,
              phase2 := (stepAppend sessionId c2 st.svc st.phase2).2 }

/-- Runs a whole schedule of steps for the two in-flight calls. -/
def runConcurrent (sessionId : String) (c1 c2 : AppendCall) :
    ConcurrentAppends → List Bool → ConcurrentAppends
  | st, [] => st
  | st, b :: bs =>
      runConcurrent sessionId c1 c2 (stepConcurrent sessionId c1 c2 st b) bs

/-- Reachability invariant for two concurrent appends starting from `svc0`:
the registry always reflects exactly the commits that have run so far. -/
def concInv (svc0 : ChatService) (sessionId : String) (c1 c2 : AppendCall)
    (st : ConcurrentAppends) : Prop :=
  (st.phase1 ≠ .committed ∧ st.phase2 ≠ .committed ∧ st.svc = svc0) ∨
  (st.phase1 = .committed ∧ st.phase2 ≠ .committed ∧
    st.svc = commitAppend svc0 sessionId c1) ∨
  (st.phase1 ≠ .committed ∧ st.phase2 = .committed ∧
    st.svc = commitAppend svc0 sessionId c2) ∨
  (st.phase1 = .committed ∧ st.phase2 = .committed ∧
    (st.svc = commitAppend (commitAppend svc0 sessionId c1) sessionId c2 ∨
     st.svc = commitAppend (commitAppend svc0 sessionId c2) sessionId c1))

theorem concInv_step (svc0 : ChatService) (sessionId : String)
    (c1 c2 : AppendCall) (st : ConcurrentAppends) (b : Bool)
    (h : concInv svc0 sessionId c1 c2 st) :
    concInv svc0 sessionId c1 c2 (stepConcurrent sessionId c1 c2 st b) := by
  obtain ⟨svc, p1, p2⟩ := st
  cases b <;> cases p1 <;> cases p2 <;>
    simp_all [concInv, stepConcurrent, stepAppend]

theorem concInv_run (svc0 : ChatService) (sessionId : String)
    (c1 c2 : AppendCall) (st : ConcurrentAppends) (sched : List Bool)
    (h : concInv svc0 sessionId c1 c2 st) :
    concInv svc0 sessionId c1 c2 (runConcurrent sessionId c1 c2 st sched) := by
  induction sched generalizing st with
  | nil => exact h
  | cons b bs ih =>
      exact ih _ (concInv_step svc0 sessionId c1 c2 st b h)

theorem commitAppend_get (svc : ChatService) (sessionId : String) (s : Session)
    (c : AppendCall) (h : mapGet svc.sessions sessionId = some s) :
    mapGet (commitAppend svc sessionId c).sessions sessionId =
      some { s with history := s.history ++ [callExchange c],
                    lastActivity := c.tsActivity } := by
  simp only [commitAppend, h]
  exact mapGet_mapSet_self svc.sessions sessionId _


/-- C8: two concurrent `sendMessage` calls to the same existing session,
interleaved under any event-loop schedule after which both calls have
committed, leave both exchanges present in the session's history — appended
after the original history in one of the two commit orders, which the
schedule fixes deterministically — with no lost update: the history length
grows by exactly 2. -/
theorem concurrent_appends_lose_no_update
    (svc : ChatService) (sessionId : String) (s : Session) (c1 c2 : AppendCall)
    (sched : List Bool)
    (h : mapGet svc.sessions sessionId = some s)
    (h1 : (runConcurrent sessionId c1 c2 ⟨svc, .pending, .pending⟩ sched).phase1 =
      .committed)
    (h2 : (runConcurrent sessionId c1 c2 ⟨svc, .pending, .pending⟩ sched).phase2 =
      .committed) :
    ∃ s1 : Session,
      mapGet (runConcurrent sessionId c1 c2 ⟨svc, .pending, .pending⟩
          sched).svc.sessions sessionId = some s1 ∧
      (s1.history = s.history ++ [callExchange c1, callExchange c2] ∨
       s1.history = s.history ++ [callExchange c2, callExchange c1]) ∧
      s1.history.length = s.history.length + 2 ∧
      callExchange c1 ∈ s1.history ∧ callExchange c2 ∈ s1.history := by
  have hstart : concInv svc sessionId c1 c2 ⟨svc, .pending, .pending⟩ :=
    Or.inl ⟨by simp, by simp, rfl⟩
  have hfin := concInv_run svc sessionId c1 c2 ⟨svc, .pending, .pending⟩
    sched hstart
  rcases hfin with ⟨hp, _, _⟩ | ⟨_, hp, _⟩ | ⟨hp, _, _⟩ | ⟨_, _, hsvc⟩
  · exact absurd h1 hp
  · exact absurd h2 hp
  · exact absurd h1 hp
  rcases hsvc with hs | hs
  · have g1 := commitAppend_get svc sessionId s c1 h
    have g2 := commitAppend_get (commitAppend svc sessionId c1) sessionId
      { s with history := s.history ++ [callExchange c1],
               lastActivity := c1.tsActivity } c2 g1
    refine ⟨_, by rw [hs]; exact g2, ?_, ?_, ?_, ?_⟩
    · exact Or.inl (by simp)
    · simp
    · simp
    · simp
  · have g1 := commitAppend_get svc sessionId s c2 h
    have g2 := commitAppend_get (commitAppend svc sessionId c2) sessionId
      { s with history := s.history ++ [callExchange c2],
               lastActivity := c2.tsActivity } c1 g1
    refine ⟨_, by rw [hs]; exact g2, ?_, ?_, ?_, ?_⟩
    · exact Or.inr (by simp)
    · simp
    · simp
    · simp

/-- Witness for C8: two concurrent appends onto a fresh session under the
schedule where the first call's provider reply resolves first, the second
call's reply resolves next, then the two commits run in order. -/
theorem concurrent_appends_lose_no_update_witness :
    ∃ s1 : Session,
      mapGet (runConcurrent "s1"
          { message := "hi", reply := "hello", freshExchangeId := 3,
            tsExchange := 10, tsActivity := 11 }
          { message := "how", reply := "fine", freshExchangeId := 4,
            tsExchange := 20, tsActivity := 21 }
          ⟨⟨[("s1", { id := "s1", chatSession := 2, history := [],
                      createdAt := 0, lastActivity := 0 })]⟩,
            .pending, .pending⟩
          [true, false, true, false]).svc.sessions "s1" = some s1 ∧
      (s1.history =
        [] ++ [callExchange { message := "hi", reply := "hello",
                              freshExchangeId := 3, tsExchange := 10,
                              tsActivity := 11 },
               callExchange { message := "how", reply := "fine",
                              freshExchangeId := 4, tsExchange := 20,
                              tsActivity := 21 }] ∨
       s1.history =
        [] ++ [callExchange { message := "how", reply := "fine",
                              freshExchangeId := 4, tsExchange := 20,
                              tsActivity := 21 },
               callExchange { message := "hi", reply := "hello",
                              freshExchangeId := 3, tsExchange := 10,
                              tsActivity := 11 }]) ∧
      s1.history.length = List.length ([] : List Exchange) + 2 ∧
      callExchange { message := "hi", reply := "hello", freshExchangeId := 3,
                     tsExchange := 10, tsActivity := 11 } ∈ s1.history ∧
      callExchange { message := "how", reply := "fine", freshExchangeId := 4,
                     tsExchange := 20, tsActivity := 21 } ∈ s1.history :=
  concurrent_appends_lose_no_update
    ⟨[("s1", { id := "s1", chatSession := 2, history := [],
               createdAt := 0, lastActivity := 0 })]⟩
    "s1"
    { id := "s1", chatSession := 2, history := [], createdAt := 0,
      lastActivity := 0 }
    { message := "hi", reply := "hello", freshExchangeId := 3,
      tsExchange := 10, tsActivity := 11 }
    { message := "how", reply := "fine", freshExchangeId := 4,
      tsExchange := 20, tsActivity := 21 }
    [true, false, true, false]
    rfl
    (by decide)
    (by decide)


end ChatBackend
